import Mathlib

/-!
Verification of the query-building, decoding and error-handling conventions
of the `spotify` Go client library (file `artist.go`).

The Go code is shallowly embedded: pure helpers become Lean functions, the
HTTP transport becomes an explicit function from request URLs to either a
transport error or a response, JSON bodies become an inductive `Json` value,
and Go's `(result, error)` return pairs become `Except GoError`.
-/

namespace Spotify

/-- JSON values, the wire format of every response body. -/
inductive Json where
  | null : Json
  | bool (b : Bool) : Json
  | num (n : Int) : Json
  | str (s : String) : Json
  | arr (elems : List Json) : Json
  | obj (fields : List (String × Json)) : Json

/-- First binding of a key in a JSON object's field list. -/
def lookupField : List (String × Json) → String → Option Json
  | [], _ => none
  | (k, v) :: rest, key => if k = key then some v else lookupField rest key

/-- `strings.Join` from the Go standard library: join with a separator. -/
def joinSep (sep : String) : List String → String
  | [] => ""
  | [s] => s
  | s :: rest => s ++ sep ++ joinSep sep rest

/-- Sequence a fallible decoder over a list, keeping order; the first
failure aborts (Go's behaviour when decoding a JSON array elementwise). -/
def traverseExc {α β ε : Type} (f : α → Except ε β) : List α → Except ε (List β)
  | [] => .ok []
  | x :: xs =>
    match f x with
    | .error e => .error e
    | .ok y =>
      match traverseExc f xs with
      | .error e => .error e
      | .ok ys => .ok (y :: ys)

/-- Uppercase hexadecimal digit, as Go's `net/url` percent-encoder emits. -/
def hexDigit (n : Nat) : Char :=
  if n < 10 then Char.ofNat (48 + n) else Char.ofNat (55 + n)

/-- UTF-8 bytes of a code point (standard 1-4 byte encoding), as the byte
sequence Go's percent-encoder escapes for a non-ASCII character. -/
def utf8Bytes (n : Nat) : List Nat :=
  if n < 128 then [n]
  else if n < 2048 then [192 + n / 64, 128 + n % 64]
  else if n < 65536 then [224 + n / 4096, 128 + (n / 64) % 64, 128 + n % 64]
  else [240 + n / 262144, 128 + (n / 4096) % 64, 128 + (n / 64) % 64, 128 + n % 64]

/-- `%XX` escape of one byte. -/
def pctByte (b : Nat) : String :=
  String.mk ['%', hexDigit (b / 16), hexDigit (b % 16)]

/-- Characters Go's `url.QueryEscape` leaves unescaped: alphanumerics and
`-`, `_`, `.`, `~`. -/
def isUnreserved (c : Char) : Bool :=
  c.isAlphanum || c = '-' || c = '_' || c = '.' || c = '~'

/-- Go's `url.QueryEscape` on one character: unreserved characters pass
through, a space becomes `+`, anything else is percent-escaped bytewise. -/
def escapeChar (c : Char) : String :=
  if isUnreserved c then String.mk [c]
  else if c = ' ' then "+"
  else joinSep "" ((utf8Bytes c.toNat).map pctByte)

/-- Go's `url.QueryEscape`. -/
def queryEscape (s : String) : String :=
  joinSep "" (s.data.map escapeChar)

/-- Model of Go's `url.Values` as used by the code: every key is `Set` at
most once, so an association list of single values suffices. -/
abbrev Values : Type := List (String × String)

/-- `url.Values.Set`: replace the key's value, or add the pair. -/
def Values.setKey : Values → String → String → Values
  | [], k, v => [(k, v)]
  | (k', v') :: rest, k, v =>
    if k' = k then (k, v) :: rest else (k', v') :: Values.setKey rest k v

/-- Byte-order comparison of strings (`sort.Strings` order for the ASCII
keys the code uses): lexicographic on code points. -/
def charsLe : List Char → List Char → Bool
  | [], _ => true
  | _ :: _, [] => false
  | c :: cs, d :: ds =>
    if c.toNat < d.toNat then true
    else if d.toNat < c.toNat then false
    else charsLe cs ds

def strLe (a b : String) : Bool := charsLe a.data b.data

/-- Insert a pair into a key-sorted association list. -/
def insortPair (p : String × String) : Values → Values
  | [] => [p]
  | q :: qs => if strLe p.1 q.1 then p :: q :: qs else q :: insortPair p qs

/-- Sort an association list by key (`url.Values.Encode` sorts keys). -/
def sortByKey : Values → Values
  | [] => []
  | p :: ps => insortPair p (sortByKey ps)

/-- Render one `key=value` component of a query string, percent-encoded. -/
def renderPair (p : String × String) : String :=
  queryEscape p.1 ++ "=" ++ queryEscape p.2

/-- Go's `url.Values.Encode`: keys in sorted order, each pair rendered as
`key=value` with both sides percent-encoded, components joined by `&`. -/
def Values.encode (vs : Values) : String :=
  joinSep "&" ((sortByKey vs).map renderPair)

/-- Modelled from the spec: `ID` (Catalog ID) is declared outside the sampled
file; the spec describes it as an opaque string-like identifier. -/
abbrev ID : Type := String

/-- Modelled from the spec: `URI` is declared outside the sampled file; the
spec describes it as the service's resource-addressing string, distinct in
kind from a catalog ID. -/
abbrev URI : Type := String

/-- Modelled from the spec: `baseAddress` (the fixed remote API base URL) is
declared outside the sampled file. Its exact value is irrelevant to the
properties proved here. -/
def baseAddress : String := "https://api.spotify.com/v1/"

/-- Modelled from the spec: the country-code constant `CountryUSA` is declared
outside the sampled file; the spec calls it the fixed fallback reference
country code (the US code, ISO 3166-1 alpha-2). -/
def CountryUSA : String := "US"

/-- Modelled from the spec: the `Options` struct is declared outside the
sampled file. Per the spec it is an optional, sparsely populated configuration
whose fields (market/country, pagination limit, pagination offset) are each
independently present-or-absent; Go's `*string` and `*int` fields become
`Option`. -/
structure Options where
  Country : Option String
  Limit : Option Int
  Offset : Option Int

/-- Go's `strconv.Itoa`: base-10 decimal rendering of an integer, with a
leading `-` for negative values. -/
def itoa (n : Int) : String := toString n

/-- Modelled from the spec: the `AlbumType` value is declared outside the
sampled file. Per the spec it is a closed set of named album-type categories
with a bitmask-style OR combinator; a value is which categories are set. -/
structure AlbumType where
  album : Bool
  single : Bool
  appearsOn : Bool
  compilation : Bool

/-- Modelled from the spec: the OR combinator over album-type category
flags. -/
def AlbumType.or (a b : AlbumType) : AlbumType :=
  ⟨a.album || b.album, a.single || b.single,
   a.appearsOn || b.appearsOn, a.compilation || b.compilation⟩

/-- Modelled from the spec: `AlbumType.encode`, the dedicated serialization
mapping the set categories to a comma-joined textual token. -/
def AlbumType.encode (t : AlbumType) : String :=
  joinSep ","
    ((if t.album then ["album"] else [])
      ++ (if t.single then ["single"] else [])
      ++ (if t.appearsOn then ["appears_on"] else [])
      ++ (if t.compilation then ["compilation"] else []))

/-- Split a string at commas (helper for the decode direction of the
album-type serialization). -/
def splitCommaAux : List Char → List Char → List String
  | [], acc => [String.mk acc.reverse]
  | c :: cs, acc =>
    if c = ',' then String.mk acc.reverse :: splitCommaAux cs []
    else splitCommaAux cs (c :: acc)

def splitComma (s : String) : List String := splitCommaAux s.data []

/-- Modelled from the spec: decoding an encoded album-type token back into
the category set — a category is set exactly when its name appears among the
comma-separated tokens. -/
def AlbumType.decode (s : String) : AlbumType :=
  let parts := splitComma s
  ⟨parts.contains "album", parts.contains "single",
   parts.contains "appears_on", parts.contains "compilation"⟩

/-- Go errors, as the code distinguishes them: a transport-level failure from
`http.Get`, the structured API error of the error decoder, or a JSON decode
failure. -/
inductive GoError where
  | transportFailure (msg : String)
  | apiError (status : Int) (message : String)
  | decodeFailure (msg : String)

/-- An HTTP response as the code reads it: status code and (JSON) body. -/
structure Response where
  statusCode : Nat
  body : Json

/-- Modelled from the spec: the injected HTTP transport — issues a GET for a
URL and either fails with a transport error or yields a response. -/
abbrev Transport : Type := String → Except GoError Response

/-- Modelled from the spec: the `Client` struct is declared outside the
sampled file; the code only uses its `http` transport dependency. -/
structure Client where
  http : Transport

/-- Modelled from the spec: `ExternalURL` is declared outside the sampled
file; per the spec it mirrors the service's JSON shape of known external URLs
(a mapping of names to URL strings). -/
abbrev ExternalURL : Type := List (String × String)

/-- Modelled from the spec: the `Followers` struct is declared outside the
sampled file; per the spec it is the entity's follower information (a count
and an endpoint link). -/
structure Followers where
  Count : Int
  Endpoint : String

/-- Modelled from the spec: the `Image` struct is declared outside the
sampled file; per the spec images come in various sizes, so a height, a
width and a URL. -/
structure Image where
  Height : Int
  Width : Int
  URL : String

/-- `SimpleArtist` from `artist.go`: basic info about an artist. -/
structure SimpleArtist where
  Name : String
  ID : ID
  URI : URI
  Endpoint : String
  ExternalURLs : ExternalURL

/-- `FullArtist` from `artist.go`: embeds `SimpleArtist` and adds popularity,
genres, followers and images. -/
structure FullArtist where
  simple : SimpleArtist
  Popularity : Int
  Genres : List String
  Followers : Followers
  Images : List Image

/-- Modelled from the spec: `FullTrack` is declared outside the sampled file;
modelled as a minimal domain-entity mirror (name, id, uri, endpoint) in the
style of the "Simple subset embedded in Full" entities the spec describes. -/
structure FullTrack where
  Name : String
  ID : ID
  URI : URI
  Endpoint : String

/-- Modelled from the spec: `SimpleAlbum` is declared outside the sampled
file; modelled as the "Simple" detail level of an album — the same subset
shape the spec gives for simple entities (name, id, uri, endpoint). -/
structure SimpleAlbum where
  Name : String
  ID : ID
  URI : URI
  Endpoint : String

/-- Modelled from the spec: `rawPage`, the generic page envelope declared
outside the sampled file — scalar pagination metadata plus the raw,
not-yet-typed items payload (`json.RawMessage`). -/
structure rawPage where
  Endpoint : String
  Limit : Int
  Offset : Int
  Total : Int
  Next : Option String
  Previous : Option String
  Items : Json

/-- Modelled from the spec: `SimpleAlbumPage`, the typed page declared
outside the sampled file — the page envelope's scalars plus the decoded
album sequence. -/
structure SimpleAlbumPage where
  Endpoint : String
  Limit : Int
  Offset : Int
  Total : Int
  Next : Option String
  Previous : Option String
  Albums : List SimpleAlbum

/-- Go `encoding/json` decode of a string-typed struct field: an absent or
null field keeps the zero value `""`, a JSON string is taken as is, and any
other shape is a decode error. -/
def getStrField (fields : List (String × Json)) (key : String) : Except GoError String :=
  match lookupField fields key with
  | none => .ok ""
  | some .null => .ok ""
  | some (.str s) => .ok s
  | some _ => .error (.decodeFailure key)

/-- Go `encoding/json` decode of an int-typed struct field: absent or null
keeps the zero value `0`, a JSON number is taken, anything else errors. -/
def getIntField (fields : List (String × Json)) (key : String) : Except GoError Int :=
  match lookupField fields key with
  | none => .ok 0
  | some .null => .ok 0
  | some (.num n) => .ok n
  | some _ => .error (.decodeFailure key)

/-- Go `encoding/json` decode of a `[]string` field: absent or null is the
nil slice, an array must be all strings, anything else errors. -/
def getStrListField (fields : List (String × Json)) (key : String) : Except GoError (List String) :=
  match lookupField fields key with
  | none => .ok []
  | some .null => .ok []
  | some (.arr xs) =>
    traverseExc
      (fun j => match j with
        | Json.str s => .ok s
        | _ => .error (GoError.decodeFailure key)) xs
  | some _ => .error (.decodeFailure key)

/-- Decode one JSON value as an `ExternalURL` mapping (all values strings). -/
def decodeExternalURL (j : Json) : Except GoError ExternalURL :=
  match j with
  | .null => .ok []
  | .obj fields =>
    traverseExc
      (fun p => match p with
        | (k, Json.str v) => .ok (k, v)
        | (k, _) => .error (GoError.decodeFailure k)) fields
  | _ => .error (.decodeFailure "external_urls")

/-- Decode an `external_urls`-typed struct field (absent keeps the zero
value, the empty mapping). -/
def getExternalURLField (fields : List (String × Json)) (key : String) : Except GoError ExternalURL :=
  match lookupField fields key with
  | none => .ok []
  | some j => decodeExternalURL j

/-- Decode a `Followers` value (absent fields keep zero values, per Go). -/
def decodeFollowers (j : Json) : Except GoError Followers :=
  match j with
  | .null => .ok ⟨0, ""⟩
  | .obj fields => do
    let total ← getIntField fields "total"
    let href ← getStrField fields "href"
    .ok ⟨total, href⟩
  | _ => .error (.decodeFailure "followers")

def getFollowersField (fields : List (String × Json)) (key : String) : Except GoError Followers :=
  match lookupField fields key with
  | none => .ok ⟨0, ""⟩
  | some j => decodeFollowers j

/-- Decode an `Image` value. -/
def decodeImage (j : Json) : Except GoError Image :=
  match j with
  | .null => .ok ⟨0, 0, ""⟩
  | .obj fields => do
    let h ← getIntField fields "height"
    let w ← getIntField fields "width"
    let u ← getStrField fields "url"
    .ok ⟨h, w, u⟩
  | _ => .error (.decodeFailure "image")

/-- Decode a `[]Image` field. -/
def getImagesField (fields : List (String × Json)) (key : String) : Except GoError (List Image) :=
  match lookupField fields key with
  | none => .ok []
  | some .null => .ok []
  | some (.arr xs) => traverseExc decodeImage xs
  | some _ => .error (.decodeFailure key)

/-- Decode a `FullArtist` from a response body, following the struct tags in
`artist.go` (`name`, `id`, `uri`, `href`, `external_urls`, `popularity`,
`genres`, `followers`, `images`; the embedded `SimpleArtist` fields are
promoted to the same object). A JSON null leaves the zero value, per Go. -/
def decodeFullArtist (j : Json) : Except GoError FullArtist :=
  match j with
  | .null => .ok ⟨⟨"", "", "", "", []⟩, 0, [], ⟨0, ""⟩, []⟩
  | .obj fields => do
    let name ← getStrField fields "name"
    let id ← getStrField fields "id"
    let uri ← getStrField fields "uri"
    let href ← getStrField fields "href"
    let ext ← getExternalURLField fields "external_urls"
    let pop ← getIntField fields "popularity"
    let genres ← getStrListField fields "genres"
    let followers ← getFollowersField fields "followers"
    let images ← getImagesField fields "images"
    .ok ⟨⟨name, id, uri, href, ext⟩, pop, genres, followers, images⟩
  | _ => .error (.decodeFailure "artist")

/-- Decode a `*FullArtist` array element as in `FindArtists`' result slice:
a JSON null is the nil pointer (`none`); otherwise the artist is decoded. -/
def decodeArtistPtr (j : Json) : Except GoError (Option FullArtist) :=
  match j with
  | .null => .ok none
  | _ => (decodeFullArtist j).map some

/-- Decode the `FindArtists` response wrapper `struct { Artists []*FullArtist }`:
per Go, a missing or null `artists` field leaves the nil slice. -/
def decodeArtistsWrapper (j : Json) : Except GoError (List (Option FullArtist)) :=
  match j with
  | .null => .ok []
  | .obj fields =>
    match lookupField fields "artists" with
    | none => .ok []
    | some .null => .ok []
    | some (.arr xs) => traverseExc decodeArtistPtr xs
    | some _ => .error (.decodeFailure "artists")
  | _ => .error (.decodeFailure "artists wrapper")

/-- Decode the `FindRelatedArtists` wrapper `struct { Artists []FullArtist }`
(value elements: a null element keeps the zero artist, per Go). -/
def decodeRelatedWrapper (j : Json) : Except GoError (List FullArtist) :=
  match j with
  | .null => .ok []
  | .obj fields =>
    match lookupField fields "artists" with
    | none => .ok []
    | some .null => .ok []
    | some (.arr xs) => traverseExc decodeFullArtist xs
    | some _ => .error (.decodeFailure "artists")
  | _ => .error (.decodeFailure "artists wrapper")

/-- Decode a `FullTrack` (minimal domain-entity mirror). -/
def decodeFullTrack (j : Json) : Except GoError FullTrack :=
  match j with
  | .null => .ok ⟨"", "", "", ""⟩
  | .obj fields => do
    let name ← getStrField fields "name"
    let id ← getStrField fields "id"
    let uri ← getStrField fields "uri"
    let href ← getStrField fields "href"
    .ok ⟨name, id, uri, href⟩
  | _ => .error (.decodeFailure "track")

/-- Decode the `ArtistsTopTracks` wrapper `struct { Tracks []FullTrack }`. -/
def decodeTracksWrapper (j : Json) : Except GoError (List FullTrack) :=
  match j with
  | .null => .ok []
  | .obj fields =>
    match lookupField fields "tracks" with
    | none => .ok []
    | some .null => .ok []
    | some (.arr xs) => traverseExc decodeFullTrack xs
    | some _ => .error (.decodeFailure "tracks")
  | _ => .error (.decodeFailure "tracks wrapper")

/-- Decode a `SimpleAlbum` item. -/
def decodeSimpleAlbum (j : Json) : Except GoError SimpleAlbum :=
  match j with
  | .null => .ok ⟨"", "", "", ""⟩
  | .obj fields => do
    let name ← getStrField fields "name"
    let id ← getStrField fields "id"
    let uri ← getStrField fields "uri"
    let href ← getStrField fields "href"
    .ok ⟨name, id, uri, href⟩
  | _ => .error (.decodeFailure "album")

/-- `json.Unmarshal(p.Items, &result.Albums)`: the raw items payload must be
an array (or null for the nil slice); each element decodes in order. -/
def decodeAlbumList (j : Json) : Except GoError (List SimpleAlbum) :=
  match j with
  | .null => .ok []
  | .arr xs => traverseExc decodeSimpleAlbum xs
  | _ => .error (.decodeFailure "items")

/-- Modelled from the spec: `decodeError` is declared outside the sampled
file. Per the spec it decodes the body as the error envelope
`\x7berror: \x7bstatus: int, message: string\x7d\x7d` into a structured API
error, and yields a generic decode error when the body does not match that
shape. -/
def decodeError (body : Json) : GoError :=
  match body with
  | .obj fields =>
    match lookupField fields "error" with
    | some (.obj efields) =>
      match lookupField efields "status", lookupField efields "message" with
      | some (.num s), some (.str m) => .apiError s m
      | _, _ => .decodeFailure "error envelope"
    | _ => .decodeFailure "error envelope"
  | _ => .decodeFailure "error envelope"

/-- Modelled from the spec: the page-envelope decode (spec 4.2) declared
outside the sampled file. The scalar fields are decoded unconditionally and
the decode fails when a required scalar field is absent or mistyped; the
optional next/previous links may be string or null; the raw items payload is
kept undecoded. -/
def decodeRawPage (j : Json) : Except GoError rawPage :=
  match j with
  | .obj fields => do
    let href ←
      match lookupField fields "href" with
      | some (Json.str s) => Except.ok s
      | _ => Except.error (GoError.decodeFailure "href")
    let limit ←
      match lookupField fields "limit" with
      | some (Json.num n) => Except.ok n
      | _ => Except.error (GoError.decodeFailure "limit")
    let offset ←
      match lookupField fields "offset" with
      | some (Json.num n) => Except.ok n
      | _ => Except.error (GoError.decodeFailure "offset")
    let total ←
      match lookupField fields "total" with
      | some (Json.num n) => Except.ok n
      | _ => Except.error (GoError.decodeFailure "total")
    let nxt ←
      match lookupField fields "next" with
      | some (Json.str s) => Except.ok (some s)
      | some Json.null => Except.ok none
      | none => Except.ok none
      | some _ => Except.error (GoError.decodeFailure "next")
    let prev ←
      match lookupField fields "previous" with
      | some (Json.str s) => Except.ok (some s)
      | some Json.null => Except.ok none
      | none => Except.ok none
      | some _ => Except.error (GoError.decodeFailure "previous")
    let items ←
      match lookupField fields "items" with
      | some it => Except.ok it
      | none => Except.error (GoError.decodeFailure "items")
    .ok ⟨href, limit, offset, total, nxt, prev, items⟩
  | _ => .error (.decodeFailure "page envelope")

/-- The request URL of `Client.FindArtist` (`artist.go` line 67). -/
def findArtistURI (id : ID) : String :=
  baseAddress ++ "artists/" ++ id

/-- The request URL of `Client.FindArtists` (`artist.go` line 96): the IDs
joined by commas after `?ids=`. -/
def findArtistsURI (ids : List ID) : String :=
  baseAddress ++ "artists?ids=" ++ joinSep "," ids

/-- The request URL of `Client.ArtistsTopTracks` (`artist.go` line 125). -/
def topTracksURI (artistID : ID) (country : String) : String :=
  baseAddress ++ "artists/" ++ artistID ++ "/top-tracks?country=" ++ country

/-- The request URL of `Client.FindRelatedArtists` (`artist.go` line 156). -/
def relatedArtistsURI (id : ID) : String :=
  baseAddress ++ "artists/" ++ id ++ "/related-artists"

/-- The `url.Values` built by `Client.ArtistAlbumsOpt` (`artist.go` lines
200-218) for a present `Options` value: `album_type` when the filter is
given; `market` from the country when set, else the `CountryUSA` fallback;
`limit` and `offset` via `strconv.Itoa` when set. -/
def artistAlbumsValues (opts : Options) (t : Option AlbumType) : Values :=
  let values : Values := []
  let values :=
    match t with
    | some ty => Values.setKey values "album_type" ty.encode
    | none => values
  let values :=
    match opts.Country with
    | some c => Values.setKey values "market" c
    | none => Values.setKey values "market" CountryUSA
  let values :=
    match opts.Limit with
    | some l => Values.setKey values "limit" (itoa l)
    | none => values
  let values :=
    match opts.Offset with
    | some o => Values.setKey values "offset" (itoa o)
    | none => values
  values

/-- The request URL of `Client.ArtistAlbumsOpt` (`artist.go` lines 197-222):
the fixed path, plus `?` and the encoded query string when options were
specified and the query is nonempty. -/
def artistAlbumsURI (artistID : ID) (options : Option Options) (t : Option AlbumType) : String :=
  let uri := baseAddress ++ "artists/" ++ artistID ++ "/albums"
  match options with
  | none => uri
  | some opts =>
    let query := Values.encode (artistAlbumsValues opts t)
    if query ≠ "" then uri ++ "?" ++ query else uri

/-- `Client.FindArtist` (`artist.go` lines 66-82). -/
def Client.FindArtist (c : Client) (id : ID) : Except GoError FullArtist :=
  match c.http (findArtistURI id) with
  | .error e => .error e
  | .ok resp =>
    if resp.statusCode ≠ 200 then .error (decodeError resp.body)
    else decodeFullArtist resp.body

/-- `Client.FindArtists` (`artist.go` lines 95-113). -/
def Client.FindArtists (c : Client) (ids : List ID) : Except GoError (List (Option FullArtist)) :=
  match c.http (findArtistsURI ids) with
  | .error e => .error e
  | .ok resp =>
    if resp.statusCode ≠ 200 then .error (decodeError resp.body)
    else decodeArtistsWrapper resp.body

/-- `Client.ArtistsTopTracks` (`artist.go` lines 124-143). -/
def Client.ArtistsTopTracks (c : Client) (artistID : ID) (country : String) : Except GoError (List FullTrack) :=
  match c.http (topTracksURI artistID country) with
  | .error e => .error e
  | .ok resp =>
    if resp.statusCode ≠ 200 then .error (decodeError resp.body)
    else decodeTracksWrapper resp.body

/-- `Client.FindRelatedArtists` (`artist.go` lines 155-173). -/
def Client.FindRelatedArtists (c : Client) (id : ID) : Except GoError (List FullArtist) :=
  match c.http (relatedArtistsURI id) with
  | .error e => .error e
  | .ok resp =>
    if resp.statusCode ≠ 200 then .error (decodeError resp.body)
    else decodeRelatedWrapper resp.body

/-- `Client.ArtistAlbumsOpt` (`artist.go` lines 196-249): build the URL with
the optional query string, GET it, fail on transport error, return the error
decoder's result on a non-OK status, and otherwise run the two-phase page
decode and fill the typed page from the envelope. -/
def Client.ArtistAlbumsOpt (c : Client) (artistID : ID) (options : Option Options) (t : Option AlbumType) : Except GoError SimpleAlbumPage :=
  match c.http (artistAlbumsURI artistID options t) with
  | .error e => .error e
  | .ok resp =>
    if resp.statusCode ≠ 200 then .error (decodeError resp.body)
    else
      match decodeRawPage resp.body with
      | .error e => .error e
      | .ok p =>
        match decodeAlbumList p.Items with
        | .error e => .error e
        | .ok albums =>
          .ok { Endpoint := p.Endpoint, Limit := p.Limit, Offset := p.Offset,
                Total := p.Total, Next := p.Next, Previous := p.Previous,
                Albums := albums }

/-- `Client.ArtistAlbums` (`artist.go` lines 182-184): delegates to
`ArtistAlbumsOpt` with nil options and nil album-type filter. -/
def Client.ArtistAlbums (c : Client) (artistID : ID) : Except GoError SimpleAlbumPage :=
  Client.ArtistAlbumsOpt c artistID none none

/-- The query parameters the spec's words call for, written directly from the
spec (section 4.1): exactly the parameters that were explicitly set, plus the
market fallback when the country is unset, in the stable sorted key order
`album_type`, `limit`, `market`, `offset`, with the numeric fields rendered
as base-10 text. Compared against the code's `artistAlbumsValues` below. -/
def specQueryPairs (o : Options) (t : Option AlbumType) : List (String × String) :=
  (match t with
    | some ty => [("album_type", ty.encode)]
    | none => [])
  ++ (match o.Limit with
    | some l => [("limit", itoa l)]
    | none => [])
  ++ [("market", match o.Country with
    | some c => c
    | none => CountryUSA)]
  ++ (match o.Offset with
    | some off => [("offset", itoa off)]
    | none => [])

/-- A 404 error-envelope body, a concrete non-success response fixture. -/
def c3Body : Json :=
  .obj [("error", .obj [("status", .num 404), ("message", .str "not found")])]

/-- A transport that always yields the 404 response. -/
def c3Get : Transport := fun _ => .ok ⟨404, c3Body⟩

/-- A transport whose GET always fails with a connection error. -/
def c6Get : Transport := fun _ => .error (.transportFailure "connection refused")

/-- Ten album items, a concrete page fixture. -/
def c4Items : List Json :=
  [.obj [("name", .str "al0"), ("id", .str "i0")],
   .obj [("name", .str "al1"), ("id", .str "i1")],
   .obj [("name", .str "al2"), ("id", .str "i2")],
   .obj [("name", .str "al3"), ("id", .str "i3")],
   .obj [("name", .str "al4"), ("id", .str "i4")],
   .obj [("name", .str "al5"), ("id", .str "i5")],
   .obj [("name", .str "al6"), ("id", .str "i6")],
   .obj [("name", .str "al7"), ("id", .str "i7")],
   .obj [("name", .str "al8"), ("id", .str "i8")],
   .obj [("name", .str "al9"), ("id", .str "i9")]]

/-- A concrete page-envelope body: total 37, limit 10, offset 20, ten items. -/
def c4Body : Json :=
  .obj [("href", .str "http://x/albums"), ("items", .arr c4Items),
        ("limit", .num 10), ("next", .null), ("offset", .num 20),
        ("previous", .str "http://x/prev"), ("total", .num 37)]

/-- The envelope decoded from `c4Body`. -/
def c4Page : rawPage :=
  ⟨"http://x/albums", 10, 20, 37, none, some "http://x/prev", .arr c4Items⟩

/-- The ten albums decoded from `c4Items`, in input order. -/
def c4Albums : List SimpleAlbum :=
  [⟨"al0", "i0", "", ""⟩, ⟨"al1", "i1", "", ""⟩, ⟨"al2", "i2", "", ""⟩,
   ⟨"al3", "i3", "", ""⟩, ⟨"al4", "i4", "", ""⟩, ⟨"al5", "i5", "", ""⟩,
   ⟨"al6", "i6", "", ""⟩, ⟨"al7", "i7", "", ""⟩, ⟨"al8", "i8", "", ""⟩,
   ⟨"al9", "i9", "", ""⟩]

/-- A transport that always yields the page response. -/
def c4Get : Transport := fun _ => .ok ⟨200, c4Body⟩

/-- Artist entity bodies for the batch fixture. -/
def c5A : Json := .obj [("name", .str "Artist A"), ("id", .str "A")]

def c5B : Json := .obj [("name", .str "Artist B"), ("id", .str "B")]

/-- The batch response body for IDs `[A, B, A, Z]` with `Z` unknown: the
service echoes the request order, with a null in the unknown position. -/
def c5Body : Json := .obj [("artists", .arr [c5A, c5B, c5A, .null])]

/-- A transport that always yields the batch response. -/
def c5Get : Transport := fun _ => .ok ⟨200, c5Body⟩

/-- The artist decoded from `c5A`. -/
def c5FA : FullArtist := ⟨⟨"Artist A", "A", "", "", []⟩, 0, [], ⟨0, ""⟩, []⟩

/-- The artist decoded from `c5B`. -/
def c5FB : FullArtist := ⟨⟨"Artist B", "B", "", "", []⟩, 0, [], ⟨0, ""⟩, []⟩

theorem strAppendAssoc (a b c : String) : a ++ b ++ c = a ++ (b ++ c) := by
  rcases a with ⟨da⟩; rcases b with ⟨db⟩; rcases c with ⟨dc⟩
  show String.mk (da ++ db ++ dc) = String.mk (da ++ (db ++ dc))
  rw [List.append_assoc]

theorem strAppendEmpty (a : String) : a ++ "" = a := by
  rcases a with ⟨da⟩
  show String.mk (da ++ []) = String.mk da
  rw [List.append_nil]

theorem strEmptyAppend (a : String) : "" ++ a = a := rfl

/-- A member of a joined list appears as a substring, between the joined
prefix and suffix. -/
theorem joinSepMem (sep : String) (s : String) :
    ∀ xs : List String, s ∈ xs →
      ∃ pre post, joinSep sep xs = pre ++ s ++ post := by
  intro xs
  induction xs with
  | nil => intro h; cases h
  | cons x rest ih =>
    intro h
    rcases List.mem_cons.mp h with heq | hmem
    · subst heq
      cases rest with
      | nil =>
        refine ⟨"", "", ?_⟩
        rw [strEmptyAppend, strAppendEmpty]
        rfl
      | cons y ys =>
        refine ⟨"", sep ++ joinSep sep (y :: ys), ?_⟩
        rw [strEmptyAppend, ← strAppendAssoc]
        rfl
    · rcases ih hmem with ⟨p, q, hpq⟩
      cases rest with
      | nil => cases hmem
      | cons y ys =>
        refine ⟨x ++ sep ++ p, q, ?_⟩
        show x ++ sep ++ joinSep sep (y :: ys) = _
        rw [hpq, ← strAppendAssoc, ← strAppendAssoc]

/-- A successful traversal yields as many results as inputs. -/
theorem traverseExcLength {α β ε : Type} (f : α → Except ε β) :
    ∀ (xs : List α) (ys : List β), traverseExc f xs = .ok ys → ys.length = xs.length := by
  intro xs
  induction xs with
  | nil => intro ys h; cases h; rfl
  | cons x rest ih =>
    intro ys h
    unfold traverseExc at h
    cases hfx : f x with
    | error e => rw [hfx] at h; cases h
    | ok y =>
      rw [hfx] at h
      cases hrest : traverseExc f rest with
      | error e => rw [hrest] at h; cases h
      | ok ys' =>
        rw [hrest] at h
        cases h
        simp [ih ys' hrest]

/-- A successful traversal decodes positionally: the i-th result is the
decoder's output on the i-th input. -/
theorem traverseExcGet {α β ε : Type} (f : α → Except ε β) :
    ∀ (xs : List α) (ys : List β), traverseExc f xs = .ok ys →
      ∀ (i : Nat) (h1 : i < xs.length) (h2 : i < ys.length),
        f (xs.get ⟨i, h1⟩) = .ok (ys.get ⟨i, h2⟩) := by
  intro xs
  induction xs with
  | nil => intro ys h i h1 h2; cases h1
  | cons x rest ih =>
    intro ys h i h1 h2
    unfold traverseExc at h
    cases hfx : f x with
    | error e => rw [hfx] at h; cases h
    | ok y =>
      rw [hfx] at h
      cases hrest : traverseExc f rest with
      | error e => rw [hrest] at h; cases h
      | ok ys' =>
        rw [hrest] at h
        cases h
        cases i with
        | zero => exact hfx
        | succ n =>
          exact ih ys' hrest n (Nat.lt_of_succ_lt_succ h1) (Nat.lt_of_succ_lt_succ h2)

/-- The code's query parameters, sorted as `url.Values.Encode` sorts them,
are exactly the parameters the spec's words call for. -/
theorem artistAlbumsValuesSorted (o : Options) (t : Option AlbumType) :
    sortByKey (artistAlbumsValues o t) = specQueryPairs o t := by
  rcases o with ⟨c, l, off⟩
  cases t <;> cases c <;> cases l <;> cases off <;> rfl

/-- C7: for every artist ID and every transport, `Client.ArtistAlbums` is
observationally equal to `Client.ArtistAlbumsOpt` with absent options and
filter, and the request URL it uses carries no query string. -/
theorem C7_artistAlbumsDelegates :
    ∀ (c : Client) (artistID : ID),
      Client.ArtistAlbums c artistID = Client.ArtistAlbumsOpt c artistID none none ∧
      artistAlbumsURI artistID none none
        = baseAddress ++ "artists/" ++ artistID ++ "/albums" := by
  intro c artistID
  exact ⟨rfl, rfl⟩

/-- C10: with absent options, a non-nil album-type filter is silently
ignored — the whole query-building block is guarded on the options being
present, so the request URL carries no query string and the call behaves
identically to the call with no filter. -/
theorem C10_filterIgnoredWhenOptionsAbsent :
    ∀ (c : Client) (artistID : ID) (t : AlbumType),
      Client.ArtistAlbumsOpt c artistID none (some t)
        = Client.ArtistAlbumsOpt c artistID none none ∧
      artistAlbumsURI artistID none (some t)
        = baseAddress ++ "artists/" ++ artistID ++ "/albums" := by
  intro c artistID t
  exact ⟨rfl, rfl⟩

/-- C9: encoding any combination of album-type category flags and decoding
the resulting token yields the original category set, in particular for a
set combined with the OR combinator. -/
theorem C9_albumTypeRoundTrip :
    (∀ t : AlbumType, AlbumType.decode (AlbumType.encode t) = t) ∧
    (∀ a b : AlbumType,
      AlbumType.decode (AlbumType.encode (AlbumType.or a b)) = AlbumType.or a b) := by
  have h : ∀ t : AlbumType, AlbumType.decode (AlbumType.encode t) = t := by
    intro t
    rcases t with ⟨a, s, ap, co⟩
    cases a <;> cases s <;> cases ap <;> cases co <;> rfl
  exact ⟨h, fun a b => h (AlbumType.or a b)⟩

/-- C2 counterexample: with a present options value whose fields are all
unset and no album-type filter, the produced query string is NOT empty and
the request URL is NOT the bare path — the market fallback is appended. -/
theorem C2_emptyOptionsCounterexample :
    Values.encode (artistAlbumsValues ⟨none, none, none⟩ none) ≠ "" ∧
    artistAlbumsURI "a1" (some ⟨none, none, none⟩) none
      ≠ artistAlbumsURI "a1" none none := by
  constructor <;> decide

/-- C2 amended: for an absent options value no query string is appended; for
a present options value with all fields unset and no filter, the produced
query string is exactly the market fallback parameter `market=US`. -/
theorem C2_emptyOptionsAmended :
    ∀ id : ID,
      artistAlbumsURI id none none = baseAddress ++ "artists/" ++ id ++ "/albums" ∧
      artistAlbumsURI id (some ⟨none, none, none⟩) none
        = baseAddress ++ "artists/" ++ id ++ "/albums" ++ "?" ++ "market=US" ∧
      CountryUSA = "US" := by
  intro id
  exact ⟨rfl, rfl, rfl⟩

/-- C8: for every present options value and optional album-type filter, the
produced query string consists of exactly the explicitly set parameters plus
the market fallback, each key and value percent-encoded, joined in the
stable sorted key order, with limit and offset rendered in base 10 — i.e. it
equals the rendering of the spec's parameter list `specQueryPairs`. -/
theorem C8_queryStringExact :
    ∀ (o : Options) (t : Option AlbumType),
      sortByKey (artistAlbumsValues o t) = specQueryPairs o t ∧
      Values.encode (artistAlbumsValues o t)
        = joinSep "&" ((specQueryPairs o t).map renderPair) := by
  intro o t
  refine ⟨artistAlbumsValuesSorted o t, ?_⟩
  show joinSep "&" ((sortByKey (artistAlbumsValues o t)).map renderPair) = _
  rw [artistAlbumsValuesSorted]

/-- C1: whenever a present options value leaves the country unset, the query
parameters contain `market` set to the fixed fallback country code, and the
encoded query string contains `market=US` — the parameter is not omitted. -/
theorem C1_marketFallback (o : Options) (t : Option AlbumType) (h : o.Country = none) :
    ("market", CountryUSA) ∈ artistAlbumsValues o t ∧
    ∃ pre post,
      Values.encode (artistAlbumsValues o t)
        = pre ++ ("market=" ++ CountryUSA) ++ post := by
  rcases o with ⟨c, l, off⟩
  cases h
  have hmem : ("market", CountryUSA) ∈ artistAlbumsValues ⟨none, l, off⟩ t := by
    cases t <;> cases l <;> cases off <;>
      simp [artistAlbumsValues, Values.setKey]
  refine ⟨hmem, ?_⟩
  have hsorted : ("market", CountryUSA) ∈ sortByKey (artistAlbumsValues ⟨none, l, off⟩ t) := by
    rw [artistAlbumsValuesSorted]
    cases t <;> cases l <;> cases off <;> simp [specQueryPairs]
  have hrmem : renderPair ("market", CountryUSA)
      ∈ (sortByKey (artistAlbumsValues ⟨none, l, off⟩ t)).map renderPair :=
    List.mem_map_of_mem renderPair hsorted
  rcases joinSepMem "&" (renderPair ("market", CountryUSA)) _ hrmem with ⟨pre, post, hpp⟩
  exact ⟨pre, post, hpp⟩

/-- C1 witness: a concrete options value with the country unset produces the
fallback market parameter. -/
theorem C1_marketFallbackWitness :
    (Options.mk none (some 5) none).Country = none ∧
    (("market", CountryUSA) ∈ artistAlbumsValues ⟨none, some 5, none⟩ none ∧
      ∃ pre post,
        Values.encode (artistAlbumsValues ⟨none, some 5, none⟩ none)
          = pre ++ ("market=" ++ CountryUSA) ++ post) :=
  ⟨rfl, C1_marketFallback ⟨none, some 5, none⟩ none rfl⟩

/-- C6: when the injected transport's GET fails, every endpoint method
returns that same transport error unchanged — no retry, no decoding, no
wrapping or replacement. -/
theorem C6_transportErrorSurfacedUnchanged :
    ∀ (c : Client) (e : GoError),
      (∀ id : ID, c.http (findArtistURI id) = .error e →
        Client.FindArtist c id = .error e) ∧
      (∀ ids : List ID, c.http (findArtistsURI ids) = .error e →
        Client.FindArtists c ids = .error e) ∧
      (∀ (id : ID) (country : String), c.http (topTracksURI id country) = .error e →
        Client.ArtistsTopTracks c id country = .error e) ∧
      (∀ id : ID, c.http (relatedArtistsURI id) = .error e →
        Client.FindRelatedArtists c id = .error e) ∧
      (∀ id : ID, c.http (artistAlbumsURI id none none) = .error e →
        Client.ArtistAlbums c id = .error e) ∧
      (∀ (id : ID) (o : Option Options) (t : Option AlbumType),
        c.http (artistAlbumsURI id o t) = .error e →
        Client.ArtistAlbumsOpt c id o t = .error e) := by
  intro c e
  refine ⟨?_, ?_, ?_, ?_, ?_, ?_⟩
  · intro id hget
    unfold Client.FindArtist
    rw [hget]
  · intro ids hget
    unfold Client.FindArtists
    rw [hget]
  · intro id country hget
    unfold Client.ArtistsTopTracks
    rw [hget]
  · intro id hget
    unfold Client.FindRelatedArtists
    rw [hget]
  · intro id hget
    unfold Client.ArtistAlbums Client.ArtistAlbumsOpt
    rw [hget]
  · intro id o t hget
    unfold Client.ArtistAlbumsOpt
    rw [hget]

/-- C6 witness: with a transport whose GET always fails with a connection
error, every endpoint returns exactly that error. -/
theorem C6_transportErrorWitness :
    c6Get (findArtistURI "x") = .error (.transportFailure "connection refused") ∧
    Client.FindArtist ⟨c6Get⟩ "x" = .error (.transportFailure "connection refused") ∧
    Client.FindArtists ⟨c6Get⟩ ["x", "y"] = .error (.transportFailure "connection refused") ∧
    Client.ArtistsTopTracks ⟨c6Get⟩ "x" "SE" = .error (.transportFailure "connection refused") ∧
    Client.FindRelatedArtists ⟨c6Get⟩ "x" = .error (.transportFailure "connection refused") ∧
    Client.ArtistAlbums ⟨c6Get⟩ "x" = .error (.transportFailure "connection refused") ∧
    Client.ArtistAlbumsOpt ⟨c6Get⟩ "x" (some ⟨some "DE", some 3, none⟩) none
      = .error (.transportFailure "connection refused") := by
  have h := C6_transportErrorSurfacedUnchanged ⟨c6Get⟩ (.transportFailure "connection refused")
  exact ⟨rfl, h.1 "x" rfl, h.2.1 ["x", "y"] rfl, h.2.2.1 "x" "SE" rfl,
    h.2.2.2.1 "x" rfl, h.2.2.2.2.1 "x" rfl,
    h.2.2.2.2.2 "x" (some ⟨some "DE", some 3, none⟩) none rfl⟩

/-- C3: on a response whose status is not a success (non-2xx), every endpoint
method returns the structured error produced by the error decoder and never a
successful result; in particular `Client.FindArtist` on an identifier unknown
to the service (a non-2xx lookup) returns an error, never a success. -/
theorem C3_nonSuccessReturnsDecodedError :
    ∀ (c : Client) (resp : Response),
      ¬ (200 ≤ resp.statusCode ∧ resp.statusCode < 300) →
      (∀ id : ID, c.http (findArtistURI id) = .ok resp →
        Client.FindArtist c id = .error (decodeError resp.body) ∧
        ∀ a, Client.FindArtist c id ≠ .ok a) ∧
      (∀ ids : List ID, c.http (findArtistsURI ids) = .ok resp →
        Client.FindArtists c ids = .error (decodeError resp.body)) ∧
      (∀ (id : ID) (country : String), c.http (topTracksURI id country) = .ok resp →
        Client.ArtistsTopTracks c id country = .error (decodeError resp.body)) ∧
      (∀ id : ID, c.http (relatedArtistsURI id) = .ok resp →
        Client.FindRelatedArtists c id = .error (decodeError resp.body)) ∧
      (∀ id : ID, c.http (artistAlbumsURI id none none) = .ok resp →
        Client.ArtistAlbums c id = .error (decodeError resp.body)) ∧
      (∀ (id : ID) (o : Option Options) (t : Option AlbumType),
        c.http (artistAlbumsURI id o t) = .ok resp →
        Client.ArtistAlbumsOpt c id o t = .error (decodeError resp.body)) := by
  intro c resp h
  have hne : resp.statusCode ≠ 200 := by
    intro he
    exact h ⟨by omega, by omega⟩
  refine ⟨?_, ?_, ?_, ?_, ?_, ?_⟩
  · intro id hget
    have heq : Client.FindArtist c id = .error (decodeError resp.body) := by
      unfold Client.FindArtist
      rw [hget]
      simp [hne]
    refine ⟨heq, ?_⟩
    intro a hok
    rw [heq] at hok
    cases hok
  · intro ids hget
    unfold Client.FindArtists
    rw [hget]
    simp [hne]
  · intro id country hget
    unfold Client.ArtistsTopTracks
    rw [hget]
    simp [hne]
  · intro id hget
    unfold Client.FindRelatedArtists
    rw [hget]
    simp [hne]
  · intro id hget
    unfold Client.ArtistAlbums Client.ArtistAlbumsOpt
    rw [hget]
    simp [hne]
  · intro id o t hget
    unfold Client.ArtistAlbumsOpt
    rw [hget]
    simp [hne]

/-- C3 witness: a 404 response carrying the error envelope makes every
endpoint return the decoded structured API error (status 404, message
"not found"), never a success. -/
theorem C3_nonSuccessWitness :
    (¬ (200 ≤ (404 : Nat) ∧ (404 : Nat) < 300)) ∧
    decodeError c3Body = .apiError 404 "not found" ∧
    Client.FindArtist ⟨c3Get⟩ "unknown" = .error (decodeError c3Body) ∧
    (∀ a, Client.FindArtist ⟨c3Get⟩ "unknown" ≠ .ok a) ∧
    Client.FindArtists ⟨c3Get⟩ ["a", "b"] = .error (decodeError c3Body) ∧
    Client.ArtistsTopTracks ⟨c3Get⟩ "a" "SE" = .error (decodeError c3Body) ∧
    Client.FindRelatedArtists ⟨c3Get⟩ "a" = .error (decodeError c3Body) ∧
    Client.ArtistAlbums ⟨c3Get⟩ "a" = .error (decodeError c3Body) ∧
    Client.ArtistAlbumsOpt ⟨c3Get⟩ "a" (some ⟨some "DE", none, none⟩) none
      = .error (decodeError c3Body) := by
  have h := C3_nonSuccessReturnsDecodedError ⟨c3Get⟩ ⟨404, c3Body⟩ (by decide)
  exact ⟨by decide, rfl, (h.1 "unknown" rfl).1, (h.1 "unknown" rfl).2,
    h.2.1 ["a", "b"] rfl, h.2.2.1 "a" "SE" rfl, h.2.2.2.1 "a" rfl,
    h.2.2.2.2.1 "a" rfl, h.2.2.2.2.2 "a" (some ⟨some "DE", none, none⟩) none rfl⟩

/-- C4: for every page-envelope body whose scalar fields decode and whose
items payload (a JSON array) decodes against the album item type, the typed
page `Client.ArtistAlbumsOpt` returns reports exactly the envelope's
endpoint, limit, offset, total, next and previous values, and its album
sequence has the same length as the JSON items array with the i-th album
decoded from the i-th item (order preserved). -/
theorem C4_pageDecodeFaithful :
    ∀ (c : Client) (artistID : ID) (options : Option Options) (t : Option AlbumType)
      (j : Json) (p : rawPage) (xs : List Json) (albums : List SimpleAlbum),
      c.http (artistAlbumsURI artistID options t) = .ok ⟨200, j⟩ →
      decodeRawPage j = .ok p →
      p.Items = Json.arr xs →
      decodeAlbumList p.Items = .ok albums →
      Client.ArtistAlbumsOpt c artistID options t
        = .ok ⟨p.Endpoint, p.Limit, p.Offset, p.Total, p.Next, p.Previous, albums⟩ ∧
      albums.length = xs.length ∧
      ∀ (i : Nat) (h1 : i < xs.length) (h2 : i < albums.length),
        decodeSimpleAlbum (xs.get ⟨i, h1⟩) = .ok (albums.get ⟨i, h2⟩) := by
  intro c artistID options t j p xs albums hget hpage hitems halbums
  have htrav : traverseExc decodeSimpleAlbum xs = .ok albums := by
    rw [hitems] at halbums
    exact halbums
  refine ⟨?_, traverseExcLength decodeSimpleAlbum xs albums htrav,
    fun i h1 h2 => traverseExcGet decodeSimpleAlbum xs albums htrav i h1 h2⟩
  unfold Client.ArtistAlbumsOpt
  rw [hget]
  simp [hpage, halbums]

/-- C4 witness: the spec's example — total 37, limit 10, offset 20, ten
items — decodes to a page reporting exactly those values with ten albums in
input order. -/
theorem C4_pageDecodeWitness :
    decodeRawPage c4Body = .ok c4Page ∧
    c4Page.Items = Json.arr c4Items ∧
    decodeAlbumList c4Page.Items = .ok c4Albums ∧
    Client.ArtistAlbumsOpt ⟨c4Get⟩ "a" (some ⟨some "US", some 10, some 20⟩) none
      = .ok ⟨"http://x/albums", 10, 20, 37, none, some "http://x/prev", c4Albums⟩ ∧
    c4Albums.length = c4Items.length := by
  have h := C4_pageDecodeFaithful ⟨c4Get⟩ "a" (some ⟨some "US", some 10, some 20⟩) none
    c4Body c4Page c4Items c4Albums rfl rfl rfl rfl
  exact ⟨rfl, rfl, rfl, h.1, h.2.1⟩

/-- C5: for every ID list, the request joins the IDs in order (duplicates
kept), and when the service's response array decodes, the result has the
same length as that array, in response order, with `none` exactly at the
null (not found) positions and the decoded artist elsewhere. -/
theorem C5_batchOrderPreserved :
    ∀ (c : Client) (ids : List ID) (resp : Response) (flds : List (String × Json))
      (xs : List Json) (l : List (Option FullArtist)),
      c.http (findArtistsURI ids) = .ok resp →
      resp.statusCode = 200 →
      resp.body = Json.obj flds →
      lookupField flds "artists" = some (Json.arr xs) →
      traverseExc decodeArtistPtr xs = .ok l →
      findArtistsURI ids = baseAddress ++ "artists?ids=" ++ joinSep "," ids ∧
      Client.FindArtists c ids = .ok l ∧
      l.length = xs.length ∧
      ∀ (i : Nat) (h1 : i < xs.length) (h2 : i < l.length),
        (xs.get ⟨i, h1⟩ = Json.null → l.get ⟨i, h2⟩ = none) ∧
        (xs.get ⟨i, h1⟩ ≠ Json.null →
          ∀ a, decodeFullArtist (xs.get ⟨i, h1⟩) = .ok a → l.get ⟨i, h2⟩ = some a) := by
  intro c ids resp flds xs l hget hstatus hbody hfield htrav
  refine ⟨rfl, ?_, traverseExcLength decodeArtistPtr xs l htrav, ?_⟩
  · unfold Client.FindArtists
    rw [hget]
    simp [hstatus, decodeArtistsWrapper, hbody, hfield, htrav]
  · intro i h1 h2
    have hptr := traverseExcGet decodeArtistPtr xs l htrav i h1 h2
    constructor
    · intro hnull
      rw [hnull] at hptr
      simp [decodeArtistPtr] at hptr
      exact hptr.symm
    · intro hne a ha
      have hred : decodeArtistPtr (xs.get ⟨i, h1⟩)
          = (decodeFullArtist (xs.get ⟨i, h1⟩)).map some := by
        cases hxs : xs.get ⟨i, h1⟩
        · exact absurd hxs hne
        · rfl
        · rfl
        · rfl
        · rfl
        · rfl
      rw [hred, ha] at hptr
      simp [Except.map] at hptr
      exact hptr.symm

/-- C5 witness: the spec's example — IDs `[A, B, A, Z]` with `Z` unknown —
yields the 4-element sequence `[artist A, artist B, artist A, none]` in
request order, with the duplicate ID giving a duplicate entry. -/
theorem C5_batchOrderWitness :
    Client.FindArtists ⟨c5Get⟩ ["A", "B", "A", "Z"]
      = .ok [some c5FA, some c5FB, some c5FA, none] ∧
    findArtistsURI ["A", "B", "A", "Z"] = baseAddress ++ "artists?ids=" ++ "A,B,A,Z" := by
  have h := C5_batchOrderPreserved ⟨c5Get⟩ ["A", "B", "A", "Z"] ⟨200, c5Body⟩
    [("artists", Json.arr [c5A, c5B, c5A, Json.null])]
    [c5A, c5B, c5A, Json.null] [some c5FA, some c5FB, some c5FA, none]
    rfl rfl rfl rfl rfl
  exact ⟨h.2.1, rfl⟩

end Spotify
